import Mathlib

/-!
Verification of the SRP6 authentication engine (crate `srp6`).

The crate's root `lib.rs` declares the modules `api`, `primitives`,
`big_number` and `hash` but only `lib.rs` itself is present in the
sources, so the protocol computations below are modelled from the
specification (sections 4.1-4.9), constrained by the code that *is*
present: the `Srp6Error` enum of `lib.rs` and the executable doc-tests
of `lib.rs`, which fix the interfaces (`generate_new_user_secrets` and
`start_handshake` return plain pairs, `calculate_proof`, `verify_proof`
and `verify_strong_proof` return `Result`).

Integers are arbitrary-precision non-negative integers (`Nat`), byte
strings are `List Nat` (each entry a byte value), and the hash is a
configuration parameter (spec 4.3: "The specific hash algorithm is a
configuration parameter, not fixed by this design").
-/

/-- Modelled from the spec: the error enum of `lib.rs` (the one piece of
the engine that is present in the sources, lines 269-284).  Payload
values are carried as numbers / byte lists instead of typed wrappers. -/
inductive Srp6Error where
  | KeyLengthMismatch (given expected : Nat)
  | InvalidProof (m1 : Nat)
  | InvalidStrongProof (m2 : Nat)
  | InvalidPublicKey (key : Nat)
deriving DecidableEq, Repr

/-- Decidable equality of fallible results, used to evaluate the model on
concrete protocol runs. -/
instance exceptDecEq {ε α : Type} [DecidableEq ε] [DecidableEq α] :
    DecidableEq (Except ε α) := fun x y =>
  match x, y with
  | .ok a, .ok b =>
    if h : a = b then isTrue (h ▸ rfl) else isFalse fun hc => h (Except.ok.inj hc)
  | .ok _, .error _ => isFalse fun hc => Except.noConfusion hc
  | .error _, .ok _ => isFalse fun hc => Except.noConfusion hc
  | .error e, .error f =>
    if h : e = f then isTrue (h ▸ rfl) else isFalse fun hc => h (Except.error.inj hc)

/-- Modelled from the spec: `mod_pow(base, exponent, modulus)` of the
Modular Arithmetic Engine (spec 4.2), extensionally `base ^ exponent
mod modulus`. -/
def mod_pow (base exp modulus : Nat) : Nat := base ^ exp % modulus

/-- Modelled from the spec: `mod_sub(a, b, modulus)` of the Modular
Arithmetic Engine (spec 4.2), with a non-negative result. -/
def mod_sub (a b modulus : Nat) : Nat :=
  (a % modulus + modulus - b % modulus) % modulus

/-- Modelled from the spec: a Group Configuration (spec 4.4) together
with the Hash Composition Function (spec 4.3).  `H` digests an ordered
sequence of big-integer operands; `credH` is the inner digest
`H(identity ‖ ":" ‖ password)` over strings. -/
structure Srp6Config where
  N : Nat
  g : Nat
  H : List Nat → Nat
  credH : String → String → Nat
deriving Inhabited

/-- Modelled from the spec: the multiplier parameter `k = H(N, g)`
(spec 4.4). -/
def Srp6Config.k (cfg : Srp6Config) : Nat := cfg.H [cfg.N, cfg.g]

/-- Modelled from the spec: the private-key digest
`x = H(s, H(username ":" password))` (spec 4.5, 4.7). -/
def Srp6Config.x (cfg : Srp6Config) (s : Nat) (username password : String) : Nat :=
  cfg.H [s, cfg.credH username password]

/-- Modelled from the spec: the `Handshake` sent from host to user,
carrying `{s, N, g, B}` (spec 4.6, section 6). -/
structure Handshake where
  s : Nat
  N : Nat
  g : Nat
  B : Nat
deriving DecidableEq, Repr

/-- Modelled from the spec: the `HandshakeProofVerifier` retained by the
host, holding `{b, v, B}` (spec 4.6). -/
structure HandshakeProofVerifier where
  b : Nat
  v : Nat
  B : Nat
deriving DecidableEq, Repr

/-- Modelled from the spec: the client's `HandshakeProof`, carrying its
public key `A` and the proof digest `M1` (spec 4.7, section 6). -/
structure HandshakeProof where
  A : Nat
  M1 : Nat
deriving DecidableEq, Repr

/-- Modelled from the spec: the `StrongProofVerifier` retained by the
user, holding `{A, M1, K}` (spec 4.7, 4.9). -/
structure StrongProofVerifier where
  A : Nat
  M1 : Nat
  K : Nat
deriving DecidableEq, Repr

/-- Modelled from the spec: registration (spec 4.5).  The freshly drawn
random salt is an explicit argument (randomness is external); the
result is the pair `(s, v)` with `v = g ^ x mod N`.  Per the doc-test of
`lib.rs` (lines 20-24) the function returns the pair directly, with no
error branch. -/
def generate_new_user_secrets (cfg : Srp6Config) (username password : String)
    (salt : Nat) : Nat × Nat :=
  (salt, mod_pow cfg.g (cfg.x salt username password) cfg.N)

/-- Modelled from the spec: the host's ephemeral public key
`B = (k*v + g^b) mod N` (spec 4.6). -/
def calculate_B (cfg : Srp6Config) (v b : Nat) : Nat :=
  (cfg.k * v + mod_pow cfg.g b cfg.N) % cfg.N

/-- Modelled from the spec: the host-side handshake (spec 4.6, 9).  The
RNG is modelled as the list `draws` of candidate private keys `b`; the
draw is retried as long as `B mod N == 0`.  Per the doc-test of `lib.rs`
(line 48) the function returns the pair directly (no `Result`), so
running out of the supplied draw prefix is `none`, not an `Srp6Error`. -/
def start_handshake (cfg : Srp6Config) (s v : Nat) :
    List Nat → Option (Handshake × HandshakeProofVerifier)
  | [] => none
  | b :: draws =>
    let B := calculate_B cfg v b
    if B % cfg.N = 0 then start_handshake cfg s v draws
    else some ({ s := s, N := cfg.N, g := cfg.g, B := B },
               { b := b, v := v, B := B })

/-- Modelled from the spec: the user-side proof computation
(spec 4.7).  The fresh ephemeral private key `a` is an explicit
argument.  Rejects `A mod N == 0` and `u == 0` with `InvalidPublicKey`;
otherwise computes `S = (B - k*g^x mod N)^(a + u*x) mod N`, `K = H(S)`,
`M1 = H(A, B, K)` and returns the proof together with the retained
`StrongProofVerifier{A, M1, K}`. -/
def calculate_proof (cfg : Srp6Config) (hs : Handshake)
    (username password : String) (a : Nat) :
    Except Srp6Error (HandshakeProof × StrongProofVerifier) :=
  let x := cfg.x hs.s username password
  let A := mod_pow hs.g a hs.N
  if A % hs.N = 0 then .error (.InvalidPublicKey A)
  else
    let u := cfg.H [A, hs.B]
    if u = 0 then .error (.InvalidPublicKey A)
    else
      let k := cfg.H [hs.N, hs.g]
      let S := mod_pow (mod_sub hs.B (k * mod_pow hs.g x hs.N % hs.N) hs.N)
                 (a + u * x) hs.N
      let K := cfg.H [S]
      let M1 := cfg.H [A, hs.B, K]
      .ok ({ A := A, M1 := M1 }, { A := A, M1 := M1, K := K })

/-- Modelled from the spec: host-side verification (spec 4.8).  Rejects
`A mod N == 0` with `InvalidPublicKey`; recomputes `u = H(A, B)`,
`S = (A * v^u mod N)^b mod N`, `K = H(S)` and the expected
`M1' = H(A, B, K)`; on mismatch fails with `InvalidProof` carrying the
received `M1`, on match returns `(M2, K)` with `M2 = H(A, M1, K)`. -/
def verify_proof (cfg : Srp6Config) (pv : HandshakeProofVerifier)
    (proof : HandshakeProof) : Except Srp6Error (Nat × Nat) :=
  if proof.A % cfg.N = 0 then .error (.InvalidPublicKey proof.A)
  else
    let u := cfg.H [proof.A, pv.B]
    let S := mod_pow (proof.A * mod_pow pv.v u cfg.N % cfg.N) pv.b cfg.N
    let K := cfg.H [S]
    let expected := cfg.H [proof.A, pv.B, K]
    if proof.M1 = expected then .ok (cfg.H [proof.A, proof.M1, K], K)
    else .error (.InvalidProof proof.M1)

/-- Modelled from the spec: user-side final verification (spec 4.9).
Recomputes `M2' = H(A, M1, K)` from the retained state and fails with
`InvalidStrongProof` carrying the received `M2` on mismatch. -/
def verify_strong_proof (cfg : Srp6Config) (spv : StrongProofVerifier)
    (m2 : Nat) : Except Srp6Error Unit :=
  let expected := cfg.H [spv.A, spv.M1, spv.K]
  if m2 = expected then .ok () else .error (.InvalidStrongProof m2)

/-- Modelled from the spec: `decode(bytes) -> integer` of the Fixed-Width
Integer Codec (spec 4.1), big-endian and total. -/
def decode (bytes : List Nat) : Nat :=
  bytes.foldl (fun acc byte => acc * 256 + byte) 0

/-- Modelled from the spec: the big-endian byte buffer of a declared
fixed length, zero-padded on the left (spec 4.1). -/
def encodeBytes : Nat → Nat → List Nat
  | _, 0 => []
  | v, len + 1 => encodeBytes (v / 256) len ++ [v % 256]

/-- Modelled from the spec: the length of the minimal big-endian encoding
of an integer, computed with an explicit fuel argument (the fuel `v`
dominates the recursion depth, which divides by 256 each step). -/
def byteLengthAux : Nat → Nat → Nat
  | _, 0 => 0
  | 0, _ + 1 => 0
  | fuel + 1, v + 1 => byteLengthAux fuel ((v + 1) / 256) + 1

/-- Modelled from the spec: the minimal big-endian encoding length of an
integer (`byte_length` in spec section 8). -/
def byteLength (v : Nat) : Nat := byteLengthAux v v

/-- Modelled from the spec: `encode(integer, declared_length) -> bytes`
of the Fixed-Width Integer Codec (spec 4.1): big-endian, zero-padded on
the left, failing with `KeyLengthMismatch` if the minimal encoding
exceeds the declared length. -/
def encode (v declaredLen : Nat) : Except Srp6Error (List Nat) :=
  if byteLength v ≤ declaredLen then .ok (encodeBytes v declaredLen)
  else .error (.KeyLengthMismatch (byteLength v) declaredLen)

/-- Modelled from the spec: construction of a Protocol Value Model
wrapper from raw bytes (spec section 3, global invariant): succeeds only
when the byte count equals the declared length, otherwise fails with
`KeyLengthMismatch{given, expected}`. -/
def wrapper_from_bytes (declaredLen : Nat) (bytes : List Nat) :
    Except Srp6Error (List Nat) :=
  if bytes.length = declaredLen then .ok bytes
  else .error (.KeyLengthMismatch bytes.length declaredLen)

/-- Modelled from the spec: the value of one hexadecimal digit, upper or
lower case (spec section 6). -/
def hexVal (c : Char) : Option Nat :=
  if '0' ≤ c ∧ c ≤ '9' then some (c.toNat - '0'.toNat)
  else if 'a' ≤ c ∧ c ≤ 'f' then some (c.toNat - 'a'.toNat + 10)
  else if 'A' ≤ c ∧ c ≤ 'F' then some (c.toNat - 'A'.toNat + 10)
  else none

/-- Modelled from the spec: hex-string decoding (spec section 6):
odd-length or non-hex-digit input fails (a decoding error, `none`). -/
def parseHexBytes : List Char → Option (List Nat)
  | [] => some []
  | [_] => none
  | c1 :: c2 :: rest =>
    match hexVal c1, hexVal c2, parseHexBytes rest with
    | some hi, some lo, some bs => some ((16 * hi + lo) :: bs)
    | _, _, _ => none

/-- Modelled from the spec: wrapper construction from a hexadecimal
string (spec section 6): after a successful parse the byte length must
equal the declared length or construction fails with
`KeyLengthMismatch`. -/
def wrapper_from_hex (declaredLen : Nat) (s : String) :
    Option (Except Srp6Error (List Nat)) :=
  (parseHexBytes s.data).map (wrapper_from_bytes declaredLen)

/-- Modelled from the spec: the `Srp6_2048` length constants (spec 4.4,
section 6).  `KEY_LEN` is the byte length of the 2048-bit modulus; the
doc-test of `lib.rs` (lines 25-26) asserts that the salt of this
configuration also has `KEY_LEN` bytes (its mock salt, line 66, is 256
bytes), so `SALT_LEN` coincides with `KEY_LEN`. -/
def Srp6_2048_KEY_LEN : Nat := 256

/-- Modelled from the spec: see `Srp6_2048_KEY_LEN`. -/
def Srp6_2048_SALT_LEN : Nat := 256

/-- Modelled from the spec: a Group Configuration is 2048-bit when its
modulus is a 2048-bit number; the concrete RFC5054 modulus is external
data (spec section 1, OUT OF SCOPE). -/
def Is2048Bit (cfg : Srp6Config) : Prop :=
  2 ^ 2047 ≤ cfg.N ∧ cfg.N < 2 ^ 2048

/-- Modelled from the spec: registration at the byte level (spec 4.5
composed with the codec of spec 4.1): the freshly drawn salt bytes pass
through unchanged and the verifier `v = g ^ x mod N` is encoded
big-endian, zero-padded to `KEY_LEN` bytes. -/
def generate_new_user_secrets_bytes (cfg : Srp6Config) (keyLen : Nat)
    (username password : String) (saltBytes : List Nat) :
    List Nat × Except Srp6Error (List Nat) :=
  (saltBytes,
   encode (mod_pow cfg.g (cfg.x (decode saltBytes) username password) cfg.N) keyLen)

lemma mod_pow_lt (base exp modulus : Nat) (h : 0 < modulus) :
    mod_pow base exp modulus < modulus :=
  Nat.mod_lt _ h

lemma decode_append (xs : List Nat) (byte : Nat) :
    decode (xs ++ [byte]) = decode xs * 256 + byte := by
  simp [decode, List.foldl_append]

lemma mod_base_pow_succ (v len : Nat) :
    v % 256 ^ (len + 1) = v / 256 % 256 ^ len * 256 + v % 256 := by
  have hdm := Nat.div_add_mod (v % 256 ^ (len + 1)) 256
  have h2 : v % 256 ^ (len + 1) % 256 = v % 256 :=
    Nat.mod_mod_of_dvd v (dvd_pow_self 256 (Nat.succ_ne_zero len))
  have h3 : v % 256 ^ (len + 1) / 256 = v / 256 % 256 ^ len := by
    rw [pow_succ']
    exact Nat.mod_mul_right_div_self v 256 (256 ^ len)
  omega

lemma decode_encodeBytes (len : Nat) :
    ∀ v, decode (encodeBytes v len) = v % 256 ^ len := by
  induction len with
  | zero => intro v; simp [encodeBytes, decode, Nat.mod_one]
  | succ len ih =>
    intro v
    rw [show encodeBytes v (len + 1) = encodeBytes (v / 256) len ++ [v % 256] from rfl,
      decode_append, ih, mod_base_pow_succ]

lemma encodeBytes_length (len : Nat) : ∀ v, (encodeBytes v len).length = len := by
  induction len with
  | zero => intro v; rfl
  | succ len ih =>
    intro v
    rw [show encodeBytes v (len + 1) = encodeBytes (v / 256) len ++ [v % 256] from rfl]
    simp [ih]

lemma byteLengthAux_le_iff (fuel : Nat) :
    ∀ v len, v ≤ fuel → (byteLengthAux fuel v ≤ len ↔ v < 256 ^ len) := by
  induction fuel with
  | zero =>
    intro v len hv
    have hv0 : v = 0 := Nat.le_zero.mp hv
    subst hv0
    simp [byteLengthAux]
  | succ fuel ih =>
    intro v len hv
    cases v with
    | zero =>
      simp [byteLengthAux]
    | succ w =>
      have hstep : byteLengthAux (fuel + 1) (w + 1)
          = byteLengthAux fuel ((w + 1) / 256) + 1 := rfl
      have hle : (w + 1) / 256 ≤ fuel := by
        have hlt := Nat.div_lt_self (Nat.succ_pos w) (show 1 < 256 by norm_num)
        omega
      cases len with
      | zero =>
        simp [hstep, pow_zero]
      | succ len =>
        rw [hstep, Nat.add_le_add_iff_right, ih ((w + 1) / 256) len hle, pow_succ]
        exact Nat.div_lt_iff_lt_mul (show (0:Nat) < 256 by norm_num)

lemma byteLength_le_iff (v len : Nat) : byteLength v ≤ len ↔ v < 256 ^ len :=
  byteLengthAux_le_iff v v len (le_refl v)

lemma session_key_agreement (N g k x u a b : Nat) (hN : 0 < N) :
    mod_pow (mod_pow g a N * mod_pow (mod_pow g x N) u N % N) b N
      = mod_pow (mod_sub ((k * mod_pow g x N + mod_pow g b N) % N)
          (k * mod_pow g x N % N) N) (a + u * x) N := by
  have hmod : ∀ y : Nat, y % N % N = y % N := fun y => Nat.mod_mod_of_dvd y dvd_rfl
  unfold mod_pow mod_sub
  simp only [hmod]
  rw [← ZMod.natCast_eq_natCast_iff']
  have hle : k * (g ^ x % N) % N ≤ (k * (g ^ x % N) + g ^ b % N) % N + N := by
    have h1 := Nat.mod_lt (k * (g ^ x % N)) hN
    omega
  push_cast [ZMod.natCast_mod, Nat.cast_sub hle, ZMod.natCast_self]
  ring

/-- A small concrete test configuration over `N = 23`, `g = 5`, with a
sum-based stand-in digest, used to exercise the protocol functions on
executable inputs. -/
def srp6Small : Srp6Config :=
  { N := 23, g := 5, H := fun l => l.foldl (· + ·) 1,
    credH := fun u p => u.length + p.length }

/-- A degenerate test configuration whose digest is constant, so that
distinct passwords collide through the whole hash chain. -/
def srp6ConstHash : Srp6Config :=
  { N := 5, g := 2, H := fun _ => 1, credH := fun _ _ => 1 }

/-- A test configuration whose digest is constantly `4`, making
`B ≡ 0 mod N` reachable for some private-key draws (`k = 4`, `v = 1`). -/
def srp6RetryHash : Srp6Config :=
  { N := 5, g := 2, H := fun _ => 4, credH := fun _ _ => 0 }

/-- A test configuration whose digest is constantly `0`, making the
scrambling parameter `u` zero. -/
def srp6ZeroHash : Srp6Config :=
  { N := 23, g := 5, H := fun _ => 0, credH := fun _ _ => 0 }

/-- C2: host verification recomputes `u = H(A, B)`,
`S = (A * v^u mod N)^b mod N`, `K = H(S)` and the expected
`M1' = H(A, B, K)`; if the received `M1` differs it fails with
`InvalidProof` carrying the received `M1` and returns no session key; if
they are equal it returns exactly `(M2, K)` with `M2 = H(A, M1, K)`. -/
theorem verify_proof_spec (cfg : Srp6Config) (pv : HandshakeProofVerifier)
    (proof : HandshakeProof) (hA : proof.A % cfg.N ≠ 0) :
    (proof.M1 ≠ cfg.H [proof.A, pv.B, cfg.H [mod_pow
        (proof.A * mod_pow pv.v (cfg.H [proof.A, pv.B]) cfg.N % cfg.N) pv.b cfg.N]] →
      verify_proof cfg pv proof = .error (.InvalidProof proof.M1))
    ∧ (proof.M1 = cfg.H [proof.A, pv.B, cfg.H [mod_pow
        (proof.A * mod_pow pv.v (cfg.H [proof.A, pv.B]) cfg.N % cfg.N) pv.b cfg.N]] →
      verify_proof cfg pv proof = .ok
        (cfg.H [proof.A, proof.M1, cfg.H [mod_pow
          (proof.A * mod_pow pv.v (cfg.H [proof.A, pv.B]) cfg.N % cfg.N) pv.b cfg.N]],
         cfg.H [mod_pow
          (proof.A * mod_pow pv.v (cfg.H [proof.A, pv.B]) cfg.N % cfg.N) pv.b cfg.N])) := by
  constructor
  · intro hne
    simp [verify_proof, hA, hne]
  · intro heq
    simp [verify_proof, hA, heq]

/-- Witness for `verify_proof_spec`: in the small test configuration with
`b = 2`, `v = 11`, `B = 22`, `A = 10`, the expected proof is `42` and the
session key is `9`; the proof `0` is rejected and the proof `42` is
accepted with `M2 = 62`. -/
theorem verify_proof_spec_witness :
    ((10:Nat) % srp6Small.N ≠ 0 ∧ (0:Nat) ≠ 42
      ∧ verify_proof srp6Small { b := 2, v := 11, B := 22 } { A := 10, M1 := 0 }
          = .error (.InvalidProof 0))
    ∧ verify_proof srp6Small { b := 2, v := 11, B := 22 } { A := 10, M1 := 42 }
        = .ok (62, 9) :=
  ⟨⟨by decide, by decide,
    (verify_proof_spec srp6Small { b := 2, v := 11, B := 22 } { A := 10, M1 := 0 }
      (by decide)).1 (by decide)⟩,
   (verify_proof_spec srp6Small { b := 2, v := 11, B := 22 } { A := 10, M1 := 42 }
      (by decide)).2 (by decide)⟩

/-- C3: a public key reducing to 0 modulo N, or a zero scrambling
parameter, is rejected with `InvalidPublicKey` and no proof or session
key is produced: the host's `verify_proof` rejects `A mod N == 0`, and
the user's `calculate_proof` rejects `A mod N == 0` and `u == 0`; in each
case the result is the error alone, whatever the secret exponents are. -/
theorem zero_key_rejected (cfg : Srp6Config) (pv : HandshakeProofVerifier)
    (proof : HandshakeProof) (hs : Handshake) (username password : String)
    (a : Nat) :
    (proof.A % cfg.N = 0 →
      verify_proof cfg pv proof = .error (.InvalidPublicKey proof.A))
    ∧ (mod_pow hs.g a hs.N % hs.N = 0 →
      calculate_proof cfg hs username password a
        = .error (.InvalidPublicKey (mod_pow hs.g a hs.N)))
    ∧ (mod_pow hs.g a hs.N % hs.N ≠ 0 → cfg.H [mod_pow hs.g a hs.N, hs.B] = 0 →
      calculate_proof cfg hs username password a
        = .error (.InvalidPublicKey (mod_pow hs.g a hs.N))) := by
  refine ⟨fun h => by simp [verify_proof, h],
    fun h => by simp [calculate_proof, h],
    fun h1 h2 => by simp [calculate_proof, h1, h2]⟩

/-- Witness for `zero_key_rejected`: the host rejects `A = 0`, the user
rejects a zero own public key (`g = 0`), and the user rejects a zero
scrambling parameter (constant-zero digest). -/
theorem zero_key_rejected_witness :
    ((0:Nat) % srp6Small.N = 0
      ∧ verify_proof srp6Small { b := 2, v := 11, B := 22 } { A := 0, M1 := 5 }
          = .error (.InvalidPublicKey 0))
    ∧ (mod_pow 0 1 23 % 23 = 0
      ∧ calculate_proof srp6Small { s := 3, N := 23, g := 0, B := 22 } "Bob" "pw" 1
          = .error (.InvalidPublicKey (mod_pow 0 1 23)))
    ∧ (mod_pow 5 3 23 % 23 ≠ 0 ∧ srp6ZeroHash.H [mod_pow 5 3 23, 22] = 0
      ∧ calculate_proof srp6ZeroHash { s := 3, N := 23, g := 5, B := 22 } "Bob" "pw" 3
          = .error (.InvalidPublicKey (mod_pow 5 3 23))) :=
  ⟨⟨by decide,
    (zero_key_rejected srp6Small { b := 2, v := 11, B := 22 } { A := 0, M1 := 5 }
      { s := 3, N := 23, g := 0, B := 22 } "Bob" "pw" 1).1 (by decide)⟩,
   ⟨by decide,
    (zero_key_rejected srp6Small { b := 2, v := 11, B := 22 } { A := 0, M1 := 5 }
      { s := 3, N := 23, g := 0, B := 22 } "Bob" "pw" 1).2.1 (by decide)⟩,
   ⟨by decide, by decide,
    (zero_key_rejected srp6ZeroHash { b := 2, v := 11, B := 22 } { A := 0, M1 := 5 }
      { s := 3, N := 23, g := 5, B := 22 } "Bob" "pw" 3).2.2 (by decide) (by decide)⟩⟩

/-- C6: `verify_strong_proof` succeeds exactly when the received `M2`
equals `H(A, M1, K)` recomputed from the retained state, and on any
mismatch fails with `InvalidStrongProof` carrying the received `M2`. -/
theorem verify_strong_proof_spec (cfg : Srp6Config) (spv : StrongProofVerifier)
    (m2 : Nat) :
    (verify_strong_proof cfg spv m2 = .ok ()
      ↔ m2 = cfg.H [spv.A, spv.M1, spv.K])
    ∧ (m2 ≠ cfg.H [spv.A, spv.M1, spv.K] →
      verify_strong_proof cfg spv m2 = .error (.InvalidStrongProof m2)) := by
  constructor
  · constructor
    · intro h
      by_cases hm : m2 = cfg.H [spv.A, spv.M1, spv.K]
      · exact hm
      · simp [verify_strong_proof, hm] at h
    · intro h
      simp [verify_strong_proof, h]
  · intro h
    simp [verify_strong_proof, h]

/-- Witness for `verify_strong_proof_spec`: with retained `A = 1`,
`M1 = 2`, `K = 3` the expected strong proof is `7`; `7` is accepted and
`0` is rejected. -/
theorem verify_strong_proof_spec_witness :
    verify_strong_proof srp6Small { A := 1, M1 := 2, K := 3 } 7 = .ok ()
    ∧ ((0:Nat) ≠ 7
      ∧ verify_strong_proof srp6Small { A := 1, M1 := 2, K := 3 } 0
          = .error (.InvalidStrongProof 0)) :=
  ⟨(verify_strong_proof_spec srp6Small { A := 1, M1 := 2, K := 3 } 7).1.mpr (by decide),
   ⟨by decide,
    (verify_strong_proof_spec srp6Small { A := 1, M1 := 2, K := 3 } 0).2 (by decide)⟩⟩

/-- C5 (amended): `start_handshake` computes `B = (k*v + g^b) mod N`,
redraws as long as `B mod N == 0`, and on the first acceptable draw
returns - directly, not through a `Result` - a `Handshake` whose fields
are exactly the stored salt, the configuration's `N` and `g`, and this
`B` (with `B mod N ≠ 0` and `B < N`, hence encodable in `KEY_LEN`
bytes), together with a verifier retaining `{b, v, B}`; exhausting the
supplied draws yields no handshake and no `Srp6Error` value (the
`InvalidPublicKey` failure path of the claim does not exist at this
interface). -/
theorem start_handshake_spec (cfg : Srp6Config) (s v b : Nat) (draws : List Nat) :
    start_handshake cfg s v [] = none
    ∧ (calculate_B cfg v b % cfg.N = 0 →
      start_handshake cfg s v (b :: draws) = start_handshake cfg s v draws)
    ∧ (calculate_B cfg v b % cfg.N ≠ 0 →
      start_handshake cfg s v (b :: draws)
        = some ({ s := s, N := cfg.N, g := cfg.g, B := calculate_B cfg v b },
                { b := b, v := v, B := calculate_B cfg v b }))
    ∧ (0 < cfg.N → ∀ hs pv, start_handshake cfg s v draws = some (hs, pv) →
      hs.s = s ∧ hs.N = cfg.N ∧ hs.g = cfg.g ∧ hs.B = pv.B ∧ pv.v = v
        ∧ hs.B % cfg.N ≠ 0 ∧ hs.B < cfg.N) := by
  refine ⟨rfl, ?_, ?_, ?_⟩
  · intro h
    simp [start_handshake, h]
  · intro h
    simp [start_handshake, h]
  · intro hN
    induction draws with
    | nil =>
      intro hs pv h
      simp [start_handshake] at h
    | cons d ds ih =>
      intro hs pv h
      simp only [start_handshake] at h
      split at h
      · exact ih hs pv h
      · rename_i hd
        rw [Option.some.injEq, Prod.mk.injEq] at h
        obtain ⟨h1, h2⟩ := h
        subst h1
        subst h2
        exact ⟨rfl, rfl, rfl, rfl, rfl, hd, Nat.mod_lt _ hN⟩

/-- C5 counterexample: in a configuration where the draw `0` produces
`B ≡ 0 mod N`, five successive zero-producing draws - more than the
small bounded retry budget the claim refers to (the spec suggests three
attempts) - do not make `start_handshake` fail with `InvalidPublicKey`:
it keeps redrawing and returns a handshake on the sixth draw; and even
exhausting every supplied draw yields no `Srp6Error` value at all. -/
theorem start_handshake_retry_counterexample :
    start_handshake srp6RetryHash 7 1 [0, 0, 0, 0, 0, 1]
      = some ({ s := 7, N := 5, g := 2, B := 1 }, { b := 1, v := 1, B := 1 })
    ∧ start_handshake srp6RetryHash 7 1 [0, 0, 0, 0, 0] = none := by
  decide

/-- Witness for `start_handshake_spec`: the zero-producing draw `0` is
redrawn, the draw `1` is accepted with `B = 1`, and the returned
handshake satisfies the field and range invariants. -/
theorem start_handshake_spec_witness :
    (calculate_B srp6RetryHash 1 0 % srp6RetryHash.N = 0
      ∧ start_handshake srp6RetryHash 7 1 [0, 1] = start_handshake srp6RetryHash 7 1 [1])
    ∧ (calculate_B srp6RetryHash 1 1 % srp6RetryHash.N ≠ 0
      ∧ start_handshake srp6RetryHash 7 1 [1]
          = some ({ s := 7, N := srp6RetryHash.N, g := srp6RetryHash.g,
                    B := calculate_B srp6RetryHash 1 1 },
                  { b := 1, v := 1, B := calculate_B srp6RetryHash 1 1 }))
    ∧ (0 < srp6RetryHash.N
      ∧ start_handshake srp6RetryHash 7 1 [0, 1]
          = some ({ s := 7, N := 5, g := 2, B := 1 }, { b := 1, v := 1, B := 1 })
      ∧ ((7:Nat) = 7 ∧ (5:Nat) = srp6RetryHash.N ∧ (2:Nat) = srp6RetryHash.g
        ∧ (1:Nat) = 1 ∧ (1:Nat) = 1 ∧ (1:Nat) % srp6RetryHash.N ≠ 0
        ∧ (1:Nat) < srp6RetryHash.N)) :=
  ⟨⟨by decide, (start_handshake_spec srp6RetryHash 7 1 0 [1]).2.1 (by decide)⟩,
   ⟨by decide, (start_handshake_spec srp6RetryHash 7 1 1 []).2.2.1 (by decide)⟩,
   ⟨by decide, by decide,
    (start_handshake_spec srp6RetryHash 7 1 0 [0, 1]).2.2.2 (by decide)
      { s := 7, N := 5, g := 2, B := 1 } { b := 1, v := 1, B := 1 } (by decide)⟩⟩

/-- C4 counterexample: with a constant digest the whole hash chain
collides, so the proof computed with the wrong password ("wrong" instead
of the registered "secret") is accepted by the host: `verify_proof`
returns `.ok` with a session key, not `InvalidProof`. -/
theorem wrong_password_accepted_counterexample :
    "secret" ≠ "wrong"
    ∧ generate_new_user_secrets srp6ConstHash "Bob" "secret" 3 = (3, 2)
    ∧ start_handshake srp6ConstHash 3 2 [1]
        = some ({ s := 3, N := 5, g := 2, B := 4 }, { b := 1, v := 2, B := 4 })
    ∧ calculate_proof srp6ConstHash { s := 3, N := 5, g := 2, B := 4 } "Bob" "wrong" 1
        = .ok ({ A := 2, M1 := 1 }, { A := 2, M1 := 1, K := 1 })
    ∧ verify_proof srp6ConstHash { b := 1, v := 2, B := 4 } { A := 2, M1 := 1 }
        = .ok (1, 1) := by
  decide

/-- C4 (amended): whenever the user-side proof - computed against the
host's handshake with any password - carries an `M1` different from the
host's recomputed expected proof (in particular for a wrong password
whose digest chain does not collide with the registered one), the host
rejects it with `InvalidProof`. -/
theorem wrong_password_rejected (cfg : Srp6Config) (username password2 : String)
    (v salt b a : Nat) (proof : HandshakeProof) (spv : StrongProofVerifier)
    (hok : calculate_proof cfg
        { s := salt, N := cfg.N, g := cfg.g, B := calculate_B cfg v b }
        username password2 a = .ok (proof, spv))
    (hne : proof.M1 ≠ cfg.H [proof.A, calculate_B cfg v b,
        cfg.H [mod_pow
          (proof.A * mod_pow v (cfg.H [proof.A, calculate_B cfg v b]) cfg.N % cfg.N)
          b cfg.N]]) :
    verify_proof cfg { b := b, v := v, B := calculate_B cfg v b } proof
      = .error (.InvalidProof proof.M1) := by
  by_cases c1 : mod_pow cfg.g a cfg.N % cfg.N = 0
  · exfalso
    simp [calculate_proof, c1] at hok
  by_cases c2 : cfg.H [mod_pow cfg.g a cfg.N, calculate_B cfg v b] = 0
  · exfalso
    simp [calculate_proof, c1, c2] at hok
  have hpA : proof.A = mod_pow cfg.g a cfg.N := by
    simp only [calculate_proof] at hok
    rw [if_neg c1, if_neg c2] at hok
    have h1 := congrArg (fun r => match r with
      | Except.ok (p, _) => p.A
      | Except.error _ => 0) hok
    simpa using h1.symm
  have hpA' : proof.A % cfg.N ≠ 0 := by
    rw [hpA]
    exact c1
  simp [verify_proof, hpA', hne]

/-- Witness for `wrong_password_rejected`: in the small test
configuration, Bob registers with "pw" (verifier `v = 11`); running the
user side with the wrong password "pwd" yields the proof `M1 = 41` while
the host expects `42`, and the host answers `InvalidProof 41`. -/
theorem wrong_password_rejected_witness :
    calculate_proof srp6Small
        { s := 3, N := srp6Small.N, g := srp6Small.g, B := calculate_B srp6Small 11 2 }
        "Bob" "pwd" 3 = .ok ({ A := 10, M1 := 41 }, { A := 10, M1 := 41, K := 8 })
    ∧ (41:Nat) ≠ 42
    ∧ verify_proof srp6Small { b := 2, v := 11, B := calculate_B srp6Small 11 2 }
        { A := 10, M1 := 41 } = .error (.InvalidProof 41) :=
  ⟨by decide, by decide,
   wrong_password_rejected srp6Small "Bob" "pwd" 11 3 2 3 { A := 10, M1 := 41 }
     { A := 10, M1 := 41, K := 8 } (by decide) (by decide)⟩

lemma start_handshake_single (cfg : Srp6Config) (s v b : Nat)
    (h : calculate_B cfg v b % cfg.N ≠ 0) :
    start_handshake cfg s v [b]
      = some ({ s := s, N := cfg.N, g := cfg.g, B := calculate_B cfg v b },
              { b := b, v := v, B := calculate_B cfg v b }) := by
  simp [start_handshake, h]

lemma calculate_proof_ok (cfg : Srp6Config) (hs : Handshake)
    (username password : String) (a : Nat)
    (hA : mod_pow hs.g a hs.N % hs.N ≠ 0)
    (hu : cfg.H [mod_pow hs.g a hs.N, hs.B] ≠ 0) :
    calculate_proof cfg hs username password a
      = .ok ({ A := mod_pow hs.g a hs.N,
               M1 := cfg.H [mod_pow hs.g a hs.N, hs.B, cfg.H [mod_pow
                 (mod_sub hs.B (cfg.H [hs.N, hs.g]
                     * mod_pow hs.g (cfg.x hs.s username password) hs.N % hs.N) hs.N)
                 (a + cfg.H [mod_pow hs.g a hs.N, hs.B] * cfg.x hs.s username password)
                 hs.N]] },
             { A := mod_pow hs.g a hs.N,
               M1 := cfg.H [mod_pow hs.g a hs.N, hs.B, cfg.H [mod_pow
                 (mod_sub hs.B (cfg.H [hs.N, hs.g]
                     * mod_pow hs.g (cfg.x hs.s username password) hs.N % hs.N) hs.N)
                 (a + cfg.H [mod_pow hs.g a hs.N, hs.B] * cfg.x hs.s username password)
                 hs.N]],
               K := cfg.H [mod_pow
                 (mod_sub hs.B (cfg.H [hs.N, hs.g]
                     * mod_pow hs.g (cfg.x hs.s username password) hs.N % hs.N) hs.N)
                 (a + cfg.H [mod_pow hs.g a hs.N, hs.B] * cfg.x hs.s username password)
                 hs.N] }) := by
  simp [calculate_proof, hA, hu]

/-- C1: protocol correctness end to end: registration, host handshake,
user proof, host verification and user final verification all succeed
(under the protocol's own zero checks on the ephemeral draws), and the
`StrongSessionKey` returned by the host's `verify_proof` is identical to
the `K` retained in the user's `StrongProofVerifier`. -/
theorem protocol_end_to_end (cfg : Srp6Config) (username password : String)
    (salt b a : Nat) (hN : 0 < cfg.N)
    (hB : calculate_B cfg (generate_new_user_secrets cfg username password salt).2 b
        % cfg.N ≠ 0)
    (hA : mod_pow cfg.g a cfg.N % cfg.N ≠ 0)
    (hu : cfg.H [mod_pow cfg.g a cfg.N,
        calculate_B cfg (generate_new_user_secrets cfg username password salt).2 b] ≠ 0) :
    ∃ hs pv proof spv m2 key,
      start_handshake cfg salt (generate_new_user_secrets cfg username password salt).2 [b]
          = some (hs, pv)
      ∧ calculate_proof cfg hs username password a = .ok (proof, spv)
      ∧ verify_proof cfg pv proof = .ok (m2, key)
      ∧ verify_strong_proof cfg spv m2 = .ok ()
      ∧ key = spv.K := by
  have e1 := start_handshake_single cfg salt
    (generate_new_user_secrets cfg username password salt).2 b hB
  have hS : mod_pow (mod_pow cfg.g a cfg.N
        * mod_pow (generate_new_user_secrets cfg username password salt).2
            (cfg.H [mod_pow cfg.g a cfg.N,
              calculate_B cfg (generate_new_user_secrets cfg username password salt).2 b])
            cfg.N % cfg.N) b cfg.N
      = mod_pow (mod_sub
          (calculate_B cfg (generate_new_user_secrets cfg username password salt).2 b)
          (cfg.H [cfg.N, cfg.g]
            * mod_pow cfg.g (cfg.x salt username password) cfg.N % cfg.N) cfg.N)
          (a + cfg.H [mod_pow cfg.g a cfg.N,
              calculate_B cfg (generate_new_user_secrets cfg username password salt).2 b]
            * cfg.x salt username password) cfg.N :=
    session_key_agreement cfg.N cfg.g (cfg.H [cfg.N, cfg.g])
      (cfg.x salt username password)
      (cfg.H [mod_pow cfg.g a cfg.N,
        calculate_B cfg (generate_new_user_secrets cfg username password salt).2 b])
      a b hN
  obtain ⟨proof, spv, e2, hpA, hsA, hsM1, hpM1, hsK⟩ : ∃ proof spv,
      calculate_proof cfg
        { s := salt, N := cfg.N, g := cfg.g,
          B := calculate_B cfg (generate_new_user_secrets cfg username password salt).2 b }
        username password a = .ok (proof, spv)
      ∧ proof.A = mod_pow cfg.g a cfg.N
      ∧ spv.A = proof.A
      ∧ spv.M1 = proof.M1
      ∧ proof.M1 = cfg.H [proof.A,
          calculate_B cfg (generate_new_user_secrets cfg username password salt).2 b,
          spv.K]
      ∧ spv.K = cfg.H [mod_pow (mod_pow cfg.g a cfg.N
          * mod_pow (generate_new_user_secrets cfg username password salt).2
              (cfg.H [mod_pow cfg.g a cfg.N,
                calculate_B cfg (generate_new_user_secrets cfg username password salt).2 b])
              cfg.N % cfg.N) b cfg.N] := by
    refine ⟨_, _, calculate_proof_ok cfg _ username password a hA hu, rfl, rfl, rfl, rfl, ?_⟩
    rw [hS]
  have hpA' : proof.A % cfg.N ≠ 0 := by
    rw [hpA]
    exact hA
  have e3 : verify_proof cfg
      { b := b, v := (generate_new_user_secrets cfg username password salt).2,
        B := calculate_B cfg (generate_new_user_secrets cfg username password salt).2 b }
      proof = .ok (cfg.H [proof.A, proof.M1, spv.K], spv.K) := by
    simp only [verify_proof]
    rw [if_neg hpA']
    rw [hpM1, hsK, hpA]
    simp
  have e4 : verify_strong_proof cfg spv (cfg.H [proof.A, proof.M1, spv.K]) = .ok () := by
    simp [verify_strong_proof, hsA, hsM1]
  exact ⟨_, _, proof, spv, _, _, e1, e2, e3, e4, rfl⟩

/-- Witness for `protocol_end_to_end`: a full protocol run for "Bob" with
password "pw" in the small test configuration (salt 3, host draw `b = 2`,
user draw `a = 3`) satisfies every zero check and succeeds end to end. -/
theorem protocol_end_to_end_witness :
    0 < srp6Small.N
    ∧ calculate_B srp6Small
        (generate_new_user_secrets srp6Small "Bob" "pw" 3).2 2 % srp6Small.N ≠ 0
    ∧ mod_pow srp6Small.g 3 srp6Small.N % srp6Small.N ≠ 0
    ∧ srp6Small.H [mod_pow srp6Small.g 3 srp6Small.N,
        calculate_B srp6Small (generate_new_user_secrets srp6Small "Bob" "pw" 3).2 2] ≠ 0
    ∧ ∃ hs pv proof spv m2 key,
        start_handshake srp6Small 3 (generate_new_user_secrets srp6Small "Bob" "pw" 3).2 [2]
            = some (hs, pv)
        ∧ calculate_proof srp6Small hs "Bob" "pw" 3 = .ok (proof, spv)
        ∧ verify_proof srp6Small pv proof = .ok (m2, key)
        ∧ verify_strong_proof srp6Small spv m2 = .ok ()
        ∧ key = spv.K :=
  ⟨by decide, by decide, by decide, by decide,
   protocol_end_to_end srp6Small "Bob" "pw" 3 2 3 (by decide) (by decide) (by decide)
     (by decide)⟩

/-- C10: registration is total at its public interface: for every
username, password and salt draw it returns the `(salt, verifier)` pair
directly - its result type has no error branch, so it cannot fail. -/
theorem generate_new_user_secrets_total (cfg : Srp6Config)
    (username password : String) (salt : Nat) :
    generate_new_user_secrets cfg username password salt
      = (salt, mod_pow cfg.g (cfg.x salt username password) cfg.N) := rfl

/-- C7: constructing a Protocol Value Model wrapper from raw bytes or
from a parsed hex string succeeds exactly when the byte count equals the
declared fixed length; otherwise it fails with
`KeyLengthMismatch{given, expected}` where `given` is the presented
length; a successful construction returns the input bytes unchanged
(never truncated or padded). -/
theorem wrapper_construction_length (declaredLen : Nat) (bytes : List Nat)
    (s : String) (bs : List Nat) :
    (wrapper_from_bytes declaredLen bytes = .ok bytes ↔ bytes.length = declaredLen)
    ∧ (bytes.length ≠ declaredLen →
      wrapper_from_bytes declaredLen bytes
        = .error (.KeyLengthMismatch bytes.length declaredLen))
    ∧ (∀ out, wrapper_from_bytes declaredLen bytes = .ok out → out = bytes)
    ∧ (parseHexBytes s.data = some bs →
      wrapper_from_hex declaredLen s = some (wrapper_from_bytes declaredLen bs)) := by
  refine ⟨?_, ?_, ?_, ?_⟩
  · unfold wrapper_from_bytes
    split
    next h => simp [h]
    next h => simp [h]
  · intro h
    simp [wrapper_from_bytes, h]
  · intro out hout
    unfold wrapper_from_bytes at hout
    split at hout
    · exact (Except.ok.inj hout).symm
    · exact Except.noConfusion hout
  · intro h
    simp [wrapper_from_hex, h]

/-- Witness for `wrapper_construction_length`: two bytes are accepted at
declared length 2, rejected at declared length 3 with the lengths in the
error, and the hex string "0aFf" parses to those two bytes. -/
theorem wrapper_construction_length_witness :
    ([10, 255] : List Nat).length = 2
    ∧ wrapper_from_bytes 2 [10, 255] = .ok [10, 255]
    ∧ ([10, 255] : List Nat).length ≠ 3
    ∧ wrapper_from_bytes 3 [10, 255] = .error (.KeyLengthMismatch 2 3)
    ∧ parseHexBytes "0aFf".data = some [10, 255]
    ∧ wrapper_from_hex 2 "0aFf" = some (wrapper_from_bytes 2 [10, 255]) :=
  ⟨by decide,
   (wrapper_construction_length 2 [10, 255] "0aFf" [10, 255]).1.mpr (by decide),
   by decide,
   (wrapper_construction_length 3 [10, 255] "0aFf" [10, 255]).2.1 (by decide),
   by decide,
   (wrapper_construction_length 2 [10, 255] "0aFf" [10, 255]).2.2.2 (by decide)⟩

/-- C8: the fixed-width codec round-trips: whenever the minimal
big-endian encoding of `v` fits in the declared length, `encode`
succeeds with exactly `declaredLen` zero-padded bytes and `decode`
recovers `v`; whenever it does not fit, `encode` fails with
`KeyLengthMismatch`. -/
theorem codec_roundtrip (v declaredLen : Nat) :
    (byteLength v ≤ declaredLen →
      encode v declaredLen = .ok (encodeBytes v declaredLen)
      ∧ (encodeBytes v declaredLen).length = declaredLen
      ∧ decode (encodeBytes v declaredLen) = v)
    ∧ (declaredLen < byteLength v →
      encode v declaredLen
        = .error (.KeyLengthMismatch (byteLength v) declaredLen)) := by
  constructor
  · intro h
    refine ⟨by simp [encode, h], encodeBytes_length declaredLen v, ?_⟩
    rw [decode_encodeBytes]
    exact Nat.mod_eq_of_lt ((byteLength_le_iff v declaredLen).mp h)
  · intro h
    have h2 : ¬ byteLength v ≤ declaredLen := by omega
    simp [encode, h2]

/-- Witness for `codec_roundtrip`: `300` has a two-byte minimal encoding;
it round-trips at declared length 2 and is rejected at declared
length 1. -/
theorem codec_roundtrip_witness :
    (byteLength 300 ≤ 2
      ∧ (encode 300 2 = .ok (encodeBytes 300 2)
        ∧ (encodeBytes 300 2).length = 2
        ∧ decode (encodeBytes 300 2) = 300))
    ∧ (1 < byteLength 300
      ∧ encode 300 1 = .error (.KeyLengthMismatch (byteLength 300) 1)) :=
  ⟨⟨by decide, (codec_roundtrip 300 2).1 (by decide)⟩,
   ⟨by decide, (codec_roundtrip 300 1).2 (by decide)⟩⟩

/-- A concrete 2048-bit stand-in configuration (the modulus value itself
is external RFC5054 data, out of the engine's scope). -/
def srp6Big : Srp6Config :=
  { N := 2 ^ 2047, g := 2, H := fun _ => 0, credH := fun _ _ => 0 }

/-- C9: for a 2048-bit configuration both registration outputs have
exactly `KEY_LEN = 256` bytes: the salt (`SALT_LEN` coincides with
`KEY_LEN` rather than being a shorter digest-sized length) and the
zero-padded password verifier, which decodes back to `v = g ^ x mod N`. -/
theorem registration_output_lengths (cfg : Srp6Config)
    (username password : String) (saltBytes : List Nat)
    (h2048 : Is2048Bit cfg) (hsalt : saltBytes.length = Srp6_2048_SALT_LEN) :
    Srp6_2048_SALT_LEN = Srp6_2048_KEY_LEN
    ∧ (generate_new_user_secrets_bytes cfg Srp6_2048_KEY_LEN username password
        saltBytes).1.length = Srp6_2048_KEY_LEN
    ∧ ∃ w, (generate_new_user_secrets_bytes cfg Srp6_2048_KEY_LEN username password
            saltBytes).2 = .ok w
        ∧ w.length = Srp6_2048_KEY_LEN
        ∧ decode w
            = (generate_new_user_secrets cfg username password (decode saltBytes)).2 := by
  obtain ⟨hlo, hhi⟩ := h2048
  have hN : 0 < cfg.N := lt_of_lt_of_le (by positivity) hlo
  have hvN : mod_pow cfg.g (cfg.x (decode saltBytes) username password) cfg.N < cfg.N :=
    Nat.mod_lt _ hN
  have h2 : (256:Nat) ^ Srp6_2048_KEY_LEN = 2 ^ 2048 := by
    show (256:Nat) ^ 256 = 2 ^ 2048
    calc (256:Nat) ^ 256 = ((2:Nat) ^ 8) ^ 256 := by norm_num
      _ = 2 ^ (8 * 256) := by rw [← pow_mul]
      _ = 2 ^ 2048 := by norm_num
  have hvlt : mod_pow cfg.g (cfg.x (decode saltBytes) username password) cfg.N
      < 256 ^ Srp6_2048_KEY_LEN := by omega
  have hbl : byteLength (mod_pow cfg.g (cfg.x (decode saltBytes) username password) cfg.N)
      ≤ Srp6_2048_KEY_LEN := (byteLength_le_iff _ _).mpr hvlt
  refine ⟨rfl, hsalt,
    encodeBytes (mod_pow cfg.g (cfg.x (decode saltBytes) username password) cfg.N)
      Srp6_2048_KEY_LEN, ?_, encodeBytes_length _ _, ?_⟩
  · simp [generate_new_user_secrets_bytes, encode, hbl]
  · rw [decode_encodeBytes]
    exact Nat.mod_eq_of_lt hvlt

/-- Witness for `registration_output_lengths`: the 2048-bit stand-in
configuration with an all-zero 256-byte salt. -/
theorem registration_output_lengths_witness :
    Is2048Bit srp6Big
    ∧ (List.replicate 256 0 : List Nat).length = Srp6_2048_SALT_LEN
    ∧ (Srp6_2048_SALT_LEN = Srp6_2048_KEY_LEN
      ∧ (generate_new_user_secrets_bytes srp6Big Srp6_2048_KEY_LEN "Bob" "pw"
          (List.replicate 256 0)).1.length = Srp6_2048_KEY_LEN
      ∧ ∃ w, (generate_new_user_secrets_bytes srp6Big Srp6_2048_KEY_LEN "Bob" "pw"
              (List.replicate 256 0)).2 = .ok w
          ∧ w.length = Srp6_2048_KEY_LEN
          ∧ decode w = (generate_new_user_secrets srp6Big "Bob" "pw"
              (decode (List.replicate 256 0))).2) := by
  have h1 : Is2048Bit srp6Big :=
    ⟨le_refl _, Nat.pow_lt_pow_right (by norm_num) (by norm_num)⟩
  have h2 : (List.replicate 256 0 : List Nat).length = Srp6_2048_SALT_LEN := by
    rw [List.length_replicate]
    rfl
  exact ⟨h1, h2,
    registration_output_lengths srp6Big "Bob" "pw" (List.replicate 256 0) h1 h2⟩
